import Mathlib

/-!
Todo service: use-case layer, request handler and error taxonomy.

A shallow embedding of the Go packages `domain`, `usecase`, `repository`,
`api/controller` and `domain/mocks`.

Conventions of the embedding.

* A Go `string` is a Lean `String` (Unicode text).  On such text Go's
  byte-wise `<` coincides with the code-point order of `String`, and
  `strings.Contains` with the contiguous-sublist relation on characters.
* A Go slice is a `List`; the `nil` slice and the empty slice are both `[]`.
* A Go `error` is `Option GoError`, `none` being `nil`.
* The storage gateway is an interface; it is embedded as a record of
  state-passing functions over an abstract store `σ`.  Every call the use
  case makes through the interface is appended to a call log.
* Logger calls are observability only and are left out.
-/

namespace TodoApp

/-! ## Basic types -/

/-- Go `uuid.UUID`, a `[16]byte`, as its 128-bit value. -/
abbrev UUID := Fin (2 ^ 128)

/-- The all-zero identifier `uuid.Nil`. -/
def uuid.Nil : UUID := 0

/-- Go `time.Time` as an instant: nanoseconds elapsed since the zero time
(January 1, year 1, 00:00:00 UTC).  The location and the monotonic clock
reading are left out: `IsZero` and `Before` compare instants, and a time
read back from storage or from JSON carries no monotonic reading. -/
structure Time where
  ns : Int
deriving DecidableEq, Repr, Inhabited

/-- Method `Time.IsZero`: the instant is the zero time. -/
def Time.IsZero (t : Time) : Bool := t.ns == 0

/-- Method `Time.Before`: the instant `t` is strictly earlier than `u`. -/
def Time.Before (t u : Time) : Bool := decide (t.ns < u.ns)

/-- The struct `domain.Todo`. -/
structure domain.Todo where
  ID : UUID
  Title : String
  Description : String
  CreatedAt : Time
  UpdatedAt : Time
  Image : String
  Status : String
deriving DecidableEq, Repr, Inhabited

open domain (Todo)

/-- Go's operator `<` on strings: lexicographic comparison, character by
character. -/
def stringLess (a b : String) : Bool := decide (a.data < b.data)

/-! ## `sortTodos` (usecase/todo.go) -/

namespace usecase

/-- Element `todos[i]` of a slice. -/
def index (todos : List Todo) (i : Nat) : Todo := todos.getD i default

/-- The parallel assignment `todos[i], todos[j] = todos[j], todos[i]`. -/
def swap (todos : List Todo) (i j : Nat) : List Todo :=
  (todos.set i (index todos j)).set j (index todos i)

/-- The inner loop of `sortTodos`, `for j := ...; j < len(todos); j++`, with
`n` iterations left to run and the loop variable at `j`.  The closure `less`
reads the slice as it currently is. -/
def sortTodosInner (less : List Todo → Nat → Nat → Bool) (i : Nat) :
    Nat → Nat → List Todo → List Todo
  | 0, _, todos => todos
  | n + 1, j, todos =>
    sortTodosInner less i n (j + 1) (if !less todos i j then swap todos i j else todos)

/-- The outer loop of `sortTodos`, `for i := ...; i < len(todos)-1; i++`, with
`n` iterations left to run and the loop variable at `i`; each iteration runs
the inner loop from `j = i + 1` up to `len(todos)`. -/
def sortTodosOuter (less : List Todo → Nat → Nat → Bool) :
    Nat → Nat → List Todo → List Todo
  | 0, _, todos => todos
  | n + 1, i, todos =>
    sortTodosOuter less n (i + 1)
      (sortTodosInner less i (todos.length - (i + 1)) (i + 1) todos)

/-- The function `sortTodos(todos, less)`: the outer loop runs from `i = 0`
while `i < len(todos)-1`. -/
def sortTodos (todos : List Todo) (less : List Todo → Nat → Nat → Bool) : List Todo :=
  sortTodosOuter less (todos.length - 1) 0 todos

/-- The method `(*todoUsecase).sortTodos(todos, sortBy)`. -/
def todoUsecase.sortTodos (todos : List Todo) (sortBy : String) : List Todo :=
  if sortBy = "title" then
    usecase.sortTodos todos (fun ts i j => stringLess (index ts i).Title (index ts j).Title)
  else if sortBy = "date" then
    usecase.sortTodos todos (fun ts i j => (index ts i).CreatedAt.Before (index ts j).CreatedAt)
  else if sortBy = "status" then
    usecase.sortTodos todos (fun ts i j => stringLess (index ts i).Status (index ts j).Status)
  else todos

end usecase

/-! ## Error taxonomy (domain/todo_domain.go) and the `errors` package -/

/-- Go error values as far as this program builds and inspects them: the
three package-level sentinels of `domain` (each a distinct pointer made by
`errors.New`), any other error value that wraps nothing, and the
`*fmt.wrapError` that `fmt.Errorf` makes for one `%w` verb. -/
inductive GoError where
  | ErrNotFound
  | ErrValidationFailed
  | ErrDatabaseOperation
  | errorString (s : String)
  | wrapError (msg : String) (err : GoError)
deriving DecidableEq, Repr

/-- The sentinel `domain.ErrNotFound`. -/
abbrev domain.ErrNotFound : GoError := GoError.ErrNotFound

/-- The sentinel `domain.ErrValidationFailed`. -/
abbrev domain.ErrValidationFailed : GoError := GoError.ErrValidationFailed

/-- The sentinel `domain.ErrDatabaseOperation`. -/
abbrev domain.ErrDatabaseOperation : GoError := GoError.ErrDatabaseOperation

/-- Method `Error()`: the text of an error. -/
def GoError.Error : GoError → String
  | .ErrNotFound => "todo not found"
  | .ErrValidationFailed => "validation failed"
  | .ErrDatabaseOperation => "database operation failed"
  | .errorString s => s
  | .wrapError msg _ => msg

/-- The function `errors.Is(err, target)`: walk the `Unwrap` chain of `err`
and compare each link with `target`.  The program only ever passes one of
the three sentinels as `target`, for which comparing values is comparing
pointers. -/
def errors.Is : GoError → GoError → Bool
  | .wrapError msg err, target => (GoError.wrapError msg err == target) || errors.Is err target
  | err, target => err == target

/-- The call `fmt.Errorf("%w: %v", e, cause)`: wraps `e`; the text is the
two texts joined by a colon and a space. -/
def fmt.Errorf_w_v (e cause : GoError) : GoError :=
  GoError.wrapError (e.Error ++ ": " ++ cause.Error) e

/-- The call `fmt.Errorf("%w: " + text, e)` for a constant `text`. -/
def fmt.Errorf_w (e : GoError) (text : String) : GoError :=
  GoError.wrapError (e.Error ++ ": " ++ text) e

/-- The call `fmt.Errorf("invalid sort parameter: %s", s)`: no `%w` verb, so
the result wraps nothing. -/
def fmt.Errorf_s (text s : String) : GoError :=
  GoError.errorString (text ++ s)

/-! ## The `strings` package -/

/-- The function `strings.Contains(s, substr)`: `substr` occurs in `s` as a
contiguous run. -/
def strings.Contains (s substr : String) : Bool := decide (substr.data <:+: s.data)

/-- The function `strings.ToLower(s)`.  A string of ASCII characters only is
returned as is when it has no upper-case letter, and otherwise with each of
`A`..`Z` moved to lower case; any other string is mapped rune by rune through
`unicode.ToLower`, the case table of the Go standard library, which is the
parameter `unicodeToLower`. -/
def strings.ToLower (unicodeToLower : Char → Char) (s : String) : String :=
  if s.data.all (fun c => decide (c.toNat < 0x80)) then
    if !s.data.any (fun c => decide ('A' ≤ c ∧ c ≤ 'Z')) then s
    else String.mk (s.data.map
      (fun c => if 'A' ≤ c ∧ c ≤ 'Z' then Char.ofNat (c.toNat + ('a'.toNat - 'A'.toNat)) else c))
  else String.mk (s.data.map unicodeToLower)

/-! ## Struct validation (the `validate` tags of `domain.Todo`) -/

namespace validator

/-- One failed field: namespace, field name and the tag that failed. -/
structure FieldError where
  ns : String
  field : String
  tag : String
deriving DecidableEq, Repr

/-- Method `Error()` of a field error. -/
def FieldError.Error (fe : FieldError) : String :=
  "Key: \x27" ++ fe.ns ++ "\x27 Error:Field validation for \x27" ++ fe.field ++
    "\x27 failed on the \x27" ++ fe.tag ++ "\x27 tag"

/-- Tag `required` on a string field: the value is not the zero value. -/
def required (s : String) : Bool := s != ""

/-- Tag `max=n` on a string field: at most `n` runes. -/
def max (n : Nat) (s : String) : Bool := decide (s.length ≤ n)

/-- A character of the base64 alphabet `[A-Za-z0-9+/]`. -/
def base64Char (c : Char) : Bool :=
  decide ('A' ≤ c ∧ c ≤ 'Z') || decide ('a' ≤ c ∧ c ≤ 'z') || decide ('0' ≤ c ∧ c ≤ '9') ||
    c == '+' || c == '/'

/-- The pattern of tag `base64`: any number of groups of four alphabet
characters, then a last group of four that is two alphabet characters and
`==`, three and `=`, or four. -/
def base64Match : List Char → Bool
  | [a, b, c, d] =>
    base64Char a && base64Char b &&
      ((c == '=' && d == '=') || (base64Char c && d == '=') || (base64Char c && base64Char d))
  | a :: b :: c :: d :: rest =>
    base64Char a && base64Char b && base64Char c && base64Char d && base64Match rest
  | _ => false

/-- Tag `base64` on a string field. -/
def base64 (s : String) : Bool := base64Match s.data

/-- Tag `oneof=v1 v2 ...` on a string field. -/
def oneof (vals : List String) (s : String) : Bool := vals.contains s

/-- Field `Title`, tags `required,max=100`: the first tag that fails. -/
def titleErrors (todo : Todo) : List FieldError :=
  if !required todo.Title then [⟨"Todo.Title", "Title", "required"⟩]
  else if !max 100 todo.Title then [⟨"Todo.Title", "Title", "max"⟩]
  else []

/-- Field `Image`, tags `omitempty,base64`. -/
def imageErrors (todo : Todo) : List FieldError :=
  if todo.Image = "" then []
  else if !base64 todo.Image then [⟨"Todo.Image", "Image", "base64"⟩]
  else []

/-- Field `Status`, tags `required,oneof=IN_PROGRESS COMPLETED`. -/
def statusErrors (todo : Todo) : List FieldError :=
  if !required todo.Status then [⟨"Todo.Status", "Status", "required"⟩]
  else if !oneof ["IN_PROGRESS", "COMPLETED"] todo.Status then [⟨"Todo.Status", "Status", "oneof"⟩]
  else []

/-- The failed fields of a todo, in the order of the struct's fields.  `ID`,
`CreatedAt` and `UpdatedAt` carry no tag, and `Description` only
`omitempty`, which never fails. -/
def fieldErrors (todo : Todo) : List FieldError :=
  titleErrors todo ++ imageErrors todo ++ statusErrors todo

/-- The call `validate.Struct(todo)`: `nil` when no field fails, otherwise an
error whose text lists the failures one per line. -/
def Struct (todo : Todo) : Option GoError :=
  if fieldErrors todo = [] then none
  else some (GoError.errorString ("\n".intercalate ((fieldErrors todo).map FieldError.Error)))

end validator

/-! ## The storage gateway (interface `domain.TodoRepository`) -/

/-- The interface `domain.TodoRepository` over a store of type `σ`.  `Create`
and `Update` receive a pointer and may write through it, so they give back
the todo; `Create`, `Update` and `Delete` may change the store, the two
lookups only read it. -/
structure domain.TodoRepository (σ : Type) where
  Create : Todo → σ → (Todo × Option GoError) × σ
  Update : Todo → σ → (Todo × Option GoError) × σ
  FindAll : σ → List Todo × Option GoError
  FindByID : UUID → σ → Option Todo × Option GoError
  Delete : UUID → σ → Option GoError × σ

/-- A call made through the storage gateway, with its argument. -/
inductive RepoCall where
  | Create (todo : Todo)
  | Update (todo : Todo)
  | FindAll
  | FindByID (id : UUID)
  | Delete (id : UUID)
deriving DecidableEq, Repr

/-- What a use case runs against: the store behind the gateway, the log of
the gateway calls made so far, and the reading `time.Now().UTC()` gives. -/
structure World (σ : Type) where
  store : σ
  calls : List RepoCall
  now : Time

/-- The interface `domain.TodoUsecase` over a world of type `ω`. -/
structure domain.TodoUsecase (ω : Type) where
  Create : Todo → ω → (Todo × Option GoError) × ω
  Update : Todo → ω → (Todo × Option GoError) × ω
  List : String → String → ω → (List Todo × Option GoError) × ω
  Delete : UUID → ω → Option GoError × ω

open domain (TodoRepository TodoUsecase)

/-! ## The use cases (usecase/todo.go) -/

namespace usecase

/-- The struct `todoUsecase`.  Its validator is always `validator.New()`; the
field `unicodeToLower` stands for the case table `strings.ToLower` consults. -/
structure todoUsecase (σ : Type) where
  repo : TodoRepository σ
  unicodeToLower : Char → Char

variable {σ : Type}

/-- The method `(*todoUsecase).Create(todo)`. -/
def todoUsecase.Create (u : todoUsecase σ) (todo : Todo) (w : World σ) :
    (Todo × Option GoError) × World σ :=
  let todo := if todo.CreatedAt.IsZero then { todo with CreatedAt := w.now } else todo
  match validator.Struct todo with
  | some err => ((todo, some (fmt.Errorf_w_v domain.ErrValidationFailed err)), w)
  | none =>
    let r := u.repo.Create todo w.store
    (r.1, { w with store := r.2, calls := w.calls ++ [RepoCall.Create todo] })

/-- The method `(*todoUsecase).Update(todo)`. -/
def todoUsecase.Update (u : todoUsecase σ) (todo : Todo) (w : World σ) :
    (Todo × Option GoError) × World σ :=
  match validator.Struct todo with
  | some err => ((todo, some (fmt.Errorf_w_v domain.ErrValidationFailed err)), w)
  | none =>
    let w1 : World σ := { w with calls := w.calls ++ [RepoCall.FindByID todo.ID] }
    match u.repo.FindByID todo.ID w.store with
    | (_, some err) =>
      if errors.Is err domain.ErrNotFound then ((todo, some err), w1)
      else ((todo, some err), w1)
    | (none, none) => ((todo, some domain.ErrNotFound), w1)
    | (some _, none) =>
      let r := u.repo.Update todo w1.store
      (r.1, { w1 with store := r.2, calls := w1.calls ++ [RepoCall.Update todo] })

/-- The search loop of `List`: `filtered` starts empty and each record whose
lower-cased title or description contains the lower-cased search string is
appended to it. -/
def searchLoop (unicodeToLower : Char → Char) (search : String) (todos : List Todo) :
    List Todo :=
  todos.foldl
    (fun filtered t =>
      if strings.Contains (strings.ToLower unicodeToLower t.Title)
            (strings.ToLower unicodeToLower search) ||
          strings.Contains (strings.ToLower unicodeToLower t.Description)
            (strings.ToLower unicodeToLower search)
      then filtered ++ [t] else filtered)
    []

/-- The method `(*todoUsecase).List(sortBy, search)`. -/
def todoUsecase.List (u : todoUsecase σ) (sortBy search : String) (w : World σ) :
    (List Todo × Option GoError) × World σ :=
  let w1 : World σ := { w with calls := w.calls ++ [RepoCall.FindAll] }
  match u.repo.FindAll w.store with
  | (_, some err) => (([], some err), w1)
  | (todos, none) =>
    let todos := if search != "" then searchLoop u.unicodeToLower search todos else todos
    if sortBy = "title" ∨ sortBy = "date" ∨ sortBy = "status" then
      ((todoUsecase.sortTodos todos sortBy, none), w1)
    else if sortBy = "" then ((todos, none), w1)
    else (([], some (fmt.Errorf_s "invalid sort parameter: " sortBy)), w1)

/-- The method `(*todoUsecase).Delete(id)`. -/
def todoUsecase.Delete (u : todoUsecase σ) (id : UUID) (w : World σ) :
    Option GoError × World σ :=
  if id = uuid.Nil then
    (some (fmt.Errorf_w domain.ErrValidationFailed "ID cannot be empty"), w)
  else
    let r := u.repo.Delete id w.store
    (r.1, { w with store := r.2, calls := w.calls ++ [RepoCall.Delete id] })

/-- The constructor `NewTodoUsecase(repo, logger)`, as the interface value it
returns. -/
def NewTodoUsecase (repo : TodoRepository σ) (unicodeToLower : Char → Char) :
    TodoUsecase (World σ) where
  Create := todoUsecase.Create ⟨repo, unicodeToLower⟩
  Update := todoUsecase.Update ⟨repo, unicodeToLower⟩
  List := todoUsecase.List ⟨repo, unicodeToLower⟩
  Delete := todoUsecase.Delete ⟨repo, unicodeToLower⟩

end usecase

/-! ## The request handler (api/controller/todo_controller.go) -/

/-- The constant `http.StatusOK`. -/
def http.StatusOK : Nat := 200

/-- The constant `http.StatusBadRequest`. -/
def http.StatusBadRequest : Nat := 400

/-- The constant `http.StatusNotFound`. -/
def http.StatusNotFound : Nat := 404

/-- The constant `http.StatusInternalServerError`. -/
def http.StatusInternalServerError : Nat := 500

namespace controller

/-- What `c.JSON` is given as body: the map `gin.H` with its one key
`error`, or a sequence of todos. -/
inductive Body where
  | H (error : String)
  | todos (ts : List Todo)
deriving DecidableEq, Repr

/-- The response written to the gin context: status code and JSON body. -/
structure Response where
  status : Nat
  body : Body
deriving DecidableEq, Repr

/-- The struct `TodoController`. -/
structure TodoController (ω : Type) where
  usecase : TodoUsecase ω

/-- The method `(*TodoController).handleError(c, err)`. -/
def handleError (err : GoError) : Response :=
  if errors.Is err domain.ErrValidationFailed then
    ⟨http.StatusBadRequest, Body.H err.Error⟩
  else if errors.Is err domain.ErrNotFound then
    ⟨http.StatusNotFound, Body.H "todo not found"⟩
  else if errors.Is err domain.ErrDatabaseOperation then
    ⟨http.StatusInternalServerError, Body.H "internal server error"⟩
  else
    ⟨http.StatusInternalServerError, Body.H "internal server error"⟩

/-- The method `(*TodoController).List(c)`; `sortBy` and `search` are the
query values `sort_by` and `search` of the request. -/
def TodoController.List {ω : Type} (h : TodoController ω) (sortBy search : String) (w : ω) :
    Response × ω :=
  match h.usecase.List sortBy search w with
  | ((_, some err), w1) => (handleError err, w1)
  | ((todos, none), w1) => (⟨http.StatusOK, Body.todos todos⟩, w1)

end controller

/-! ## The repository mock (domain/mocks/todo_repository_mock.go) -/

/-- The values a `MockTodoRepository` has been set up to return. -/
structure mocks.Returns where
  Create : Option GoError
  Update : Option GoError
  FindAll : List Todo × Option GoError
  FindByID : Option Todo × Option GoError
  Delete : Option GoError

/-- The struct `MockTodoRepository`: every method hands back the configured
value and leaves the todo it was given alone.  It has no store. -/
def mocks.MockTodoRepository (ret : mocks.Returns) : TodoRepository Unit where
  Create := fun todo s => ((todo, ret.Create), s)
  Update := fun todo s => ((todo, ret.Update), s)
  FindAll := fun _ => ret.FindAll
  FindByID := fun _ _ => ret.FindByID
  Delete := fun _ s => (ret.Delete, s)

/-! ## The creation hook (domain/todo_domain.go) and the repository
(repository/todo_repository.go) -/

/-- The method `(*Todo).BeforeCreate(tx)`; `new` is the identifier `uuid.New()`
returns.  The named result `err` is never assigned, so the error is `nil`. -/
def domain.Todo.BeforeCreate (new : UUID) (t : Todo) : Todo × Option GoError :=
  (if t.ID = uuid.Nil then { t with ID := new } else t, none)

namespace repository

/-- Modelled from the spec: the table behind the `*gorm.DB` handle of
`TodoRepo`, one row per todo, and `db.Create(todo)` on it.  The creation hook
runs first, then the record exists with all fields as given.  The table
never fails. -/
def dbCreate (new : UUID) (todo : Todo) (rows : List Todo) : Todo × List Todo :=
  ((todo.BeforeCreate new).1, rows ++ [(todo.BeforeCreate new).1])

/-- Modelled from the spec: `db.Save(todo)` overwrites the stored record
matching `todo.ID` with all given field values, `updated_at` being refreshed
to the time `now` of the update. -/
def dbSave (now : Time) (todo : Todo) (rows : List Todo) : Todo × List Todo :=
  ({ todo with UpdatedAt := now },
    rows.map (fun r => if r.ID = todo.ID then { todo with UpdatedAt := now } else r))

/-- Modelled from the spec: `db.First(&todo, "id = ?", id)` gives the record
with that id, or nothing (`gorm.ErrRecordNotFound`) when absent. -/
def dbFirst (id : UUID) (rows : List Todo) : Option Todo :=
  rows.find? (fun r => r.ID == id)

/-- Modelled from the spec: `db.Delete(&domain.Todo{}, "id = ?", id)` removes
the records with that id; the first component is `RowsAffected`. -/
def dbDelete (id : UUID) (rows : List Todo) : Nat × List Todo :=
  ((rows.filter (fun r => r.ID == id)).length, rows.filter (fun r => !(r.ID == id)))

/-- The struct `TodoRepo` as a `domain.TodoRepository` over the table, with
the methods `Create`, `Update`, `FindAll`, `FindByID`, `Delete` of
repository/todo_repository.go.  The branches that wrap a database failure in
`ErrDatabaseOperation` are not reached, the table never failing.  `new` is
what `uuid.New()` returns in the creation hook and `now` the time of the
database session. -/
def TodoRepo (new : UUID) (now : Time) : TodoRepository (List Todo) where
  Create := fun todo rows => (((dbCreate new todo rows).1, none), (dbCreate new todo rows).2)
  Update := fun todo rows => (((dbSave now todo rows).1, none), (dbSave now todo rows).2)
  FindAll := fun rows => (rows, none)
  FindByID := fun id rows =>
    match dbFirst id rows with
    | none => (none, some domain.ErrNotFound)
    | some todo => (some todo, none)
  Delete := fun id rows =>
    if (dbDelete id rows).1 = 0 then (some domain.ErrNotFound, rows)
    else (none, (dbDelete id rows).2)

end repository

/-! ## The exchange sort seen on lists

`sortTodos` works on positions.  The two definitions below describe the same
computation on the records themselves; the lemmas `sortTodosInner_eq` and
`sortTodos_eq_exchange` show that the loops compute exactly these. -/

namespace usecase

/-- The closure `func(i, j int) bool` that compares the records at two
positions by `r`. -/
def lessBy (r : Todo → Todo → Bool) : List Todo → Nat → Nat → Bool :=
  fun ts i j => r (index ts i) (index ts j)

/-- One run of the inner loop, seen from the record `x` held at position `i`
and the records still ahead of `j`: the result is the record left at
position `i` and the records left ahead. -/
def pass (r : Todo → Todo → Bool) : Todo → List Todo → Todo × List Todo
  | x, [] => (x, [])
  | x, y :: ys =>
    if !r x y then ((pass r y ys).1, x :: (pass r y ys).2)
    else ((pass r x ys).1, y :: (pass r x ys).2)

/-- The outer loop run `n` times on the records from position `i` on. -/
def exchange (r : Todo → Todo → Bool) : Nat → List Todo → List Todo
  | 0, l => l
  | _ + 1, [] => []
  | n + 1, x :: xs => (pass r x xs).1 :: exchange r n (pass r x xs).2

end usecase

/-! ## The properties the specification speaks of -/

namespace spec

/-- A record matches a search string: its lower-cased title or its
lower-cased description contains the lower-cased search string. -/
def matchesSearch (unicodeToLower : Char → Char) (search : String) (t : Todo) : Bool :=
  strings.Contains (strings.ToLower unicodeToLower t.Title)
      (strings.ToLower unicodeToLower search) ||
    strings.Contains (strings.ToLower unicodeToLower t.Description)
      (strings.ToLower unicodeToLower search)

/-- The search-filtered records: all of them for the empty search string,
otherwise the matching ones in their fetch order. -/
def searchFiltered (unicodeToLower : Char → Char) (search : String) (todos : List Todo) :
    List Todo :=
  if search = "" then todos else todos.filter (matchesSearch unicodeToLower search)

/-- Record `a` may stand before record `b` in the order chosen by `sortBy`:
titles and statuses compare as strings, creation times chronologically. -/
def keyLE (sortBy : String) (a b : Todo) : Prop :=
  if sortBy = "title" then a.Title ≤ b.Title
  else if sortBy = "date" then a.CreatedAt.ns ≤ b.CreatedAt.ns
  else if sortBy = "status" then a.Status ≤ b.Status
  else True

/-- Records `a` and `b` have equal sort keys under `sortBy`. -/
def sameKey (sortBy : String) (a b : Todo) : Bool :=
  if sortBy = "title" then a.Title == b.Title
  else if sortBy = "date" then a.CreatedAt == b.CreatedAt
  else if sortBy = "status" then a.Status == b.Status
  else false

/-- The result `out` of sorting `input` by `sortBy` is stable: records with
equal sort keys stand in `out` in the order they have in `input`. -/
def stable (sortBy : String) (input out : List Todo) : Prop :=
  ∀ t0, out.filter (sameKey sortBy t0) = input.filter (sameKey sortBy t0)

end spec

/-- The error `err` wrapped once per message of `msgs`, the first message
outermost, each layer as `fmt.Errorf` makes it for a `%w` verb. -/
def wrapAll (msgs : List String) (err : GoError) : GoError :=
  msgs.foldr GoError.wrapError err

/-! ## Fixtures -/

/-- A todo as the tests build them: a title, a status, a creation time. -/
def fixture (id : UUID) (title status : String) (created : Int) : Todo :=
  { ID := id, Title := title, Description := "", CreatedAt := ⟨created⟩, UpdatedAt := ⟨0⟩,
    Image := "", Status := status }

/-- A mock repository whose `FindAll` returns `todos` and whose other methods
succeed, `FindByID` finding nothing. -/
def fixtureRepo (todos : List Todo) : TodoRepository Unit :=
  mocks.MockTodoRepository ⟨none, none, (todos, none), (none, some domain.ErrNotFound), none⟩

/-- A use case over `fixtureRepo`; the case table is not consulted on ASCII
text. -/
def fixtureUsecase (todos : List Todo) : usecase.todoUsecase Unit :=
  ⟨fixtureRepo todos, fun c => c⟩

/-- A world with an empty call log. -/
def fixtureWorld : World Unit := ⟨(), [], ⟨1000⟩⟩

/-- A mock repository every method of which fails with `e`. -/
def failingRepo (e : GoError) : TodoRepository Unit :=
  mocks.MockTodoRepository ⟨some e, some e, ([], some e), (none, some e), some e⟩

/-- A mock repository whose `FindByID` finds `found` and whose `Update` fails
with `e`. -/
def failingUpdateRepo (found : Todo) (e : GoError) : TodoRepository Unit :=
  mocks.MockTodoRepository ⟨none, some e, ([found], none), (some found, none), none⟩

/-- A use case over the repository `TodoRepo`. -/
def tableUsecase : usecase.todoUsecase (List Todo) :=
  ⟨repository.TodoRepo 77 ⟨2000⟩, fun c => c⟩

/-- A world whose table holds `rows`, with an empty call log. -/
def tableWorld (rows : List Todo) : World (List Todo) := ⟨rows, [], ⟨1000⟩⟩

/-! ## Lemmas on the exchange sort -/

namespace usecase

theorem index_append_length (pre : List Todo) (x : Todo) (tl : List Todo) :
    index (pre ++ x :: tl) pre.length = x := by
  induction pre with
  | nil => rfl
  | cons p pre ih => simpa [index] using ih

theorem index_cons_succ (p : Todo) (l : List Todo) (i : Nat) :
    index (p :: l) (i + 1) = index l i := rfl

theorem swap_cons_succ (p : Todo) (l : List Todo) (i j : Nat) :
    swap (p :: l) (i + 1) (j + 1) = p :: swap l i j := by
  simp [swap, index_cons_succ]

theorem set_append_length (mid : List Todo) (y x : Todo) (ys : List Todo) :
    (mid ++ y :: ys).set mid.length x = mid ++ x :: ys := by
  induction mid with
  | nil => rfl
  | cons m mid ih => simp [ih]

theorem swap_zero (x y : Todo) (mid ys : List Todo) :
    swap (x :: (mid ++ y :: ys)) 0 (mid.length + 1) = y :: (mid ++ x :: ys) := by
  have h1 : index (x :: (mid ++ y :: ys)) (mid.length + 1) = y := by
    rw [index_cons_succ]; exact index_append_length mid y ys
  have h0 : index (x :: (mid ++ y :: ys)) 0 = x := rfl
  simp only [swap, h1, h0, List.set_cons_zero, List.set_cons_succ, set_append_length]

theorem swap_append (pre : List Todo) (x y : Todo) (mid ys : List Todo) :
    swap (pre ++ x :: (mid ++ y :: ys)) pre.length (pre.length + (mid.length + 1)) =
      pre ++ y :: (mid ++ x :: ys) := by
  induction pre with
  | nil => simpa using swap_zero x y mid ys
  | cons p pre ih =>
    have : (p :: pre).length + (mid.length + 1) = (pre.length + (mid.length + 1)) + 1 := by
      simp; omega
    rw [this]
    simp only [List.cons_append, List.length_cons]
    rw [swap_cons_succ, ih]

theorem index_append_mid (pre : List Todo) (x y : Todo) (mid ys : List Todo) :
    index (pre ++ x :: (mid ++ y :: ys)) (pre.length + (mid.length + 1)) = y := by
  have h : pre ++ x :: (mid ++ y :: ys) = (pre ++ x :: mid) ++ y :: ys := by simp
  have hl : pre.length + (mid.length + 1) = (pre ++ x :: mid).length := by simp
  rw [h, hl]
  exact index_append_length _ y ys

/-- The inner loop, started with `pre` before position `i`, `x` at position
`i`, `mid` between `i` and `j`, and `rest` from `j` on, leaves `pre` and `mid`
alone and treats `x` and `rest` as `pass` does. -/
theorem sortTodosInner_eq (r : Todo → Todo → Bool) (pre : List Todo) :
    ∀ (rest : List Todo) (x : Todo) (mid : List Todo),
      sortTodosInner (lessBy r) pre.length rest.length (pre.length + (mid.length + 1))
          (pre ++ x :: (mid ++ rest)) =
        pre ++ (pass r x rest).1 :: (mid ++ (pass r x rest).2) := by
  intro rest
  induction rest with
  | nil => intro x mid; simp [sortTodosInner, pass]
  | cons y ys ih =>
    intro x mid
    have hi : index (pre ++ x :: (mid ++ y :: ys)) pre.length = x :=
      index_append_length pre x _
    have hj := index_append_mid pre x y mid ys
    have hlen : pre.length + (mid.length + 1) + 1 = pre.length + ((mid ++ [x]).length + 1) := by
      simp; omega
    have hlen2 : pre.length + (mid.length + 1) + 1 = pre.length + ((mid ++ [y]).length + 1) := by
      simp; omega
    simp only [List.length_cons, sortTodosInner, lessBy, hi, hj]
    by_cases hr : r x y = true
    · have e : pre ++ x :: (mid ++ y :: ys) = pre ++ x :: ((mid ++ [y]) ++ ys) := by simp
      simp only [hr, Bool.not_true, Bool.false_eq_true, if_false, pass]
      rw [e, hlen2, ih x (mid ++ [y])]
      simp
    · have e : pre ++ y :: (mid ++ x :: ys) = pre ++ y :: ((mid ++ [x]) ++ ys) := by simp
      simp only [Bool.not_eq_true] at hr
      simp only [hr, Bool.not_false, if_true, pass, swap_append]
      rw [e, hlen, ih y (mid ++ [x])]
      simp

theorem pass_length (r : Todo → Todo → Bool) :
    ∀ (xs : List Todo) (x : Todo), (pass r x xs).2.length = xs.length := by
  intro xs
  induction xs with
  | nil => intro x; rfl
  | cons y ys ih =>
    intro x
    by_cases hr : r x y = true
    · simp [pass, hr, ih]
    · simp only [Bool.not_eq_true] at hr
      simp [pass, hr, ih]

/-- The outer loop, started at position `i` with `pre` before it and `n + 1`
records from it on, leaves `pre` alone and treats the rest as `exchange`
does. -/
theorem sortTodosOuter_eq (r : Todo → Todo → Bool) :
    ∀ (n : Nat) (pre suffix : List Todo), suffix.length = n + 1 →
      sortTodosOuter (lessBy r) n pre.length (pre ++ suffix) = pre ++ exchange r n suffix := by
  intro n
  induction n with
  | zero => intro pre suffix _; simp [sortTodosOuter, exchange]
  | succ n ih =>
    intro pre suffix hs
    match suffix, hs with
    | x :: xs, hs =>
      have hx : xs.length = n + 1 := by simpa using hs
      have hcount : (pre ++ x :: xs).length - (pre.length + 1) = xs.length := by
        simp; omega
      have hinner := sortTodosInner_eq r pre xs x []
      simp only [List.length_nil, Nat.zero_add, List.nil_append] at hinner
      simp only [sortTodosOuter, hcount, hinner, exchange]
      have e : pre ++ (pass r x xs).1 :: (pass r x xs).2 =
          (pre ++ [(pass r x xs).1]) ++ (pass r x xs).2 := by simp
      have hl : pre.length + 1 = (pre ++ [(pass r x xs).1]).length := by simp
      rw [e, hl, ih _ _ (by rw [pass_length]; exact hx)]
      simp

/-- The position-based loops of `sortTodos` compute `exchange`. -/
theorem sortTodos_eq_exchange (r : Todo → Todo → Bool) (todos : List Todo) :
    sortTodos todos (lessBy r) = exchange r (todos.length - 1) todos := by
  cases todos with
  | nil => rfl
  | cons x xs =>
    have h := sortTodosOuter_eq r xs.length [] (x :: xs) (by simp)
    simpa [sortTodos] using h

/-! ### What `pass` and `exchange` do, for a comparison by a key -/

section Keyed

variable {κ : Type} [LinearOrder κ] (key : Todo → κ) (r : Todo → Todo → Bool)

theorem pass_perm : ∀ (xs : List Todo) (x : Todo),
    ((pass r x xs).1 :: (pass r x xs).2).Perm (x :: xs) := by
  intro xs
  induction xs with
  | nil => intro x; exact List.Perm.refl _
  | cons y ys ih =>
    intro x
    by_cases h : r x y = true
    · simp only [pass, h, Bool.not_true, Bool.false_eq_true, if_false]
      exact ((List.Perm.swap _ _ _).trans ((ih x).cons y)).trans (List.Perm.swap _ _ _)
    · simp only [Bool.not_eq_true] at h
      simp only [pass, h, Bool.not_false, if_true]
      exact (List.Perm.swap _ _ _).trans ((ih y).cons x)

theorem exchange_perm : ∀ (n : Nat) (l : List Todo), (exchange r n l).Perm l := by
  intro n
  induction n with
  | zero => intro l; exact List.Perm.refl _
  | succ n ih =>
    intro l
    cases l with
    | nil => exact List.Perm.refl _
    | cons x xs =>
      simp only [exchange]
      exact ((ih _).cons _).trans (pass_perm r xs x)

/-- The record a pass leaves at position `i` has the least key of all. -/
theorem pass_le (hr : ∀ a b, r a b = true ↔ key a < key b) : ∀ (xs : List Todo) (x : Todo),
    key (pass r x xs).1 ≤ key x ∧ ∀ z ∈ (pass r x xs).2, key (pass r x xs).1 ≤ key z := by
  intro xs
  induction xs with
  | nil => intro x; simp [pass]
  | cons y ys ih =>
    intro x
    by_cases h : r x y = true
    · have hxy : key x < key y := (hr x y).1 h
      simp only [pass, h, Bool.not_true, Bool.false_eq_true, if_false]
      refine ⟨(ih x).1, ?_⟩
      intro z hz
      rcases List.mem_cons.1 hz with rfl | hz
      · exact le_trans (ih x).1 (le_of_lt hxy)
      · exact (ih x).2 z hz
    · have hyx : key y ≤ key x := by
        exact not_lt.1 (fun hlt => h ((hr x y).2 hlt))
      simp only [Bool.not_eq_true] at h
      simp only [pass, h, Bool.not_false, if_true]
      refine ⟨le_trans (ih y).1 hyx, ?_⟩
      intro z hz
      rcases List.mem_cons.1 hz with rfl | hz
      · exact le_trans (ih y).1 hyx
      · exact (ih y).2 z hz

theorem exchange_sorted (hr : ∀ a b, r a b = true ↔ key a < key b) :
    ∀ (n : Nat) (l : List Todo), l.length ≤ n + 1 →
      (exchange r n l).Pairwise (fun a b => key a ≤ key b) := by
  intro n
  induction n with
  | zero =>
    intro l hl
    match l, hl with
    | [], _ => exact List.Pairwise.nil
    | [x], _ => simp [exchange]
  | succ n ih =>
    intro l hl
    cases l with
    | nil => exact List.Pairwise.nil
    | cons x xs =>
      simp only [exchange]
      refine List.Pairwise.cons ?_ (ih _ ?_)
      · intro z hz
        exact (pass_le key r hr xs x).2 z (((exchange_perm r n _).mem_iff).1 hz)
      · rw [pass_length]; simpa using hl

/-- A pass keeps, key by key, the order of the records it leaves behind: the
records ahead followed by the one left at position `i` list each key's
records in the order they had. -/
theorem pass_filter (hr : ∀ a b, r a b = true ↔ key a < key b) (k : κ) (p : Todo → Bool)
    (hp : ∀ t, p t = true ↔ key t = k) :
    ∀ (xs : List Todo) (x : Todo),
      ((pass r x xs).2 ++ [(pass r x xs).1]).filter p = (x :: xs).filter p := by
  intro xs
  induction xs with
  | nil => intro x; simp [pass]
  | cons y ys ih =>
    intro x
    by_cases h : r x y = true
    · have hxy : key x < key y := (hr x y).1 h
      have ih1 := ih x
      simp only [pass, h, Bool.not_true, Bool.false_eq_true, if_false, List.cons_append]
      rw [List.filter_cons, ih1]
      by_cases hx : p x = true
      · have hy : p y = false := by
          cases hpy : p y with
          | false => rfl
          | true =>
            exact absurd (((hp x).1 hx).trans ((hp y).1 hpy).symm) (ne_of_lt hxy)
        simp [List.filter_cons, hx, hy]
      · simp only [Bool.not_eq_true] at hx
        by_cases hy : p y = true
        · simp [List.filter_cons, hx, hy]
        · simp only [Bool.not_eq_true] at hy
          simp [List.filter_cons, hx, hy]
    · simp only [Bool.not_eq_true] at h
      have ih1 := ih y
      simp only [pass, h, Bool.not_false, if_true, List.cons_append]
      rw [List.filter_cons, ih1]
      simp [List.filter_cons]

/-- The sort reverses ties: key by key, the records come out in the reverse
of the order they went in. -/
theorem exchange_filter (hr : ∀ a b, r a b = true ↔ key a < key b) (k : κ) (p : Todo → Bool)
    (hp : ∀ t, p t = true ↔ key t = k) :
    ∀ (n : Nat) (l : List Todo), l.length ≤ n + 1 →
      (exchange r n l).filter p = (l.filter p).reverse := by
  intro n
  induction n with
  | zero =>
    intro l hl
    match l, hl with
    | [], _ => rfl
    | [x], _ => by_cases hx : p x = true <;> simp [exchange, List.filter_cons, hx]
  | succ n ih =>
    intro l hl
    cases l with
    | nil => rfl
    | cons x xs =>
      have hpf := pass_filter key r hr k p hp xs x
      have hlen : (pass r x xs).2.length ≤ n + 1 := by rw [pass_length]; simpa using hl
      simp only [exchange]
      rw [← hpf, List.filter_append, List.reverse_append, ← ih _ hlen]
      by_cases hm : p (pass r x xs).1 = true <;> simp [List.filter_cons, hm]

end Keyed

/-- On a comparison by a key, `sortTodos` returns a permutation in
non-decreasing key order in which ties come out reversed. -/
theorem sortTodos_keyed {κ : Type} [LinearOrder κ] (key : Todo → κ) (r : Todo → Todo → Bool)
    (hr : ∀ a b, r a b = true ↔ key a < key b) (todos : List Todo) :
    (sortTodos todos (lessBy r)).Perm todos ∧
      (sortTodos todos (lessBy r)).Pairwise (fun a b => key a ≤ key b) ∧
      ∀ (k : κ) (p : Todo → Bool), (∀ t, p t = true ↔ key t = k) →
        (sortTodos todos (lessBy r)).filter p = (todos.filter p).reverse := by
  rw [sortTodos_eq_exchange]
  have hl : todos.length ≤ todos.length - 1 + 1 := by omega
  exact ⟨exchange_perm r _ _, exchange_sorted key r hr _ _ hl,
    fun k p hp => exchange_filter key r hr k p hp _ _ hl⟩

theorem stringLess_iff (a b : String) : stringLess a b = true ↔ a < b := by
  simp [stringLess, String.lt_iff_toList_lt, String.toList]

theorem sortTodos_title (todos : List Todo) :
    todoUsecase.sortTodos todos "title" =
      sortTodos todos (lessBy (fun a b => stringLess a.Title b.Title)) := by
  simp [todoUsecase.sortTodos]; rfl

theorem sortTodos_date (todos : List Todo) :
    todoUsecase.sortTodos todos "date" =
      sortTodos todos (lessBy (fun a b => a.CreatedAt.Before b.CreatedAt)) := by
  simp [todoUsecase.sortTodos]; rfl

theorem sortTodos_status (todos : List Todo) :
    todoUsecase.sortTodos todos "status" =
      sortTodos todos (lessBy (fun a b => stringLess a.Status b.Status)) := by
  simp [todoUsecase.sortTodos]; rfl

theorem sameKey_title (t0 t : Todo) :
    spec.sameKey "title" t0 t = true ↔ t.Title = t0.Title := by
  unfold spec.sameKey
  rw [if_pos rfl, beq_iff_eq]
  exact eq_comm

theorem sameKey_date (t0 t : Todo) :
    spec.sameKey "date" t0 t = true ↔ t.CreatedAt.ns = t0.CreatedAt.ns := by
  unfold spec.sameKey
  rw [if_neg (by decide), if_pos rfl, beq_iff_eq]
  constructor
  · intro h; rw [h]
  · intro h
    cases hc : t.CreatedAt
    cases hc0 : t0.CreatedAt
    rw [hc, hc0] at h
    simp only at h
    rw [h]

theorem sameKey_status (t0 t : Todo) :
    spec.sameKey "status" t0 t = true ↔ t.Status = t0.Status := by
  unfold spec.sameKey
  rw [if_neg (by decide), if_neg (by decide), if_pos rfl, beq_iff_eq]
  exact eq_comm

/-- The three sort orders of the method `sortTodos` at once. -/
theorem sortTodos_method (todos : List Todo) (sortBy : String)
    (hsort : sortBy = "title" ∨ sortBy = "date" ∨ sortBy = "status") :
    (todoUsecase.sortTodos todos sortBy).Perm todos ∧
      (todoUsecase.sortTodos todos sortBy).Pairwise (spec.keyLE sortBy) ∧
      ∀ t0, (todoUsecase.sortTodos todos sortBy).filter (spec.sameKey sortBy t0) =
        (todos.filter (spec.sameKey sortBy t0)).reverse := by
  rcases hsort with rfl | rfl | rfl
  · obtain ⟨h1, h2, h3⟩ := sortTodos_keyed (fun t => t.Title)
      (fun a b => stringLess a.Title b.Title) (fun a b => stringLess_iff _ _) todos
    rw [sortTodos_title]
    refine ⟨h1, ?_, ?_⟩
    · have e : spec.keyLE "title" = fun a b => a.Title ≤ b.Title := by
        funext a b; simp [spec.keyLE]
      rw [e]; exact h2
    · intro t0
      exact h3 t0.Title _ (sameKey_title t0)
  · obtain ⟨h1, h2, h3⟩ := sortTodos_keyed (fun t => t.CreatedAt.ns)
      (fun a b => a.CreatedAt.Before b.CreatedAt) (fun a b => by simp [Time.Before]) todos
    rw [sortTodos_date]
    refine ⟨h1, ?_, ?_⟩
    · have e : spec.keyLE "date" = fun a b => a.CreatedAt.ns ≤ b.CreatedAt.ns := by
        funext a b; simp [spec.keyLE]
      rw [e]; exact h2
    · intro t0
      exact h3 t0.CreatedAt.ns _ (sameKey_date t0)
  · obtain ⟨h1, h2, h3⟩ := sortTodos_keyed (fun t => t.Status)
      (fun a b => stringLess a.Status b.Status) (fun a b => stringLess_iff _ _) todos
    rw [sortTodos_status]
    refine ⟨h1, ?_, ?_⟩
    · have e : spec.keyLE "status" = fun a b => a.Status ≤ b.Status := by
        funext a b; simp [spec.keyLE]
      rw [e]; exact h2
    · intro t0
      exact h3 t0.Status _ (sameKey_status t0)

/-! ### The search loop -/

theorem searchLoop_foldl (p : Todo → Bool) : ∀ (todos acc : List Todo),
    todos.foldl (fun filtered t => if p t then filtered ++ [t] else filtered) acc =
      acc ++ todos.filter p := by
  intro todos
  induction todos with
  | nil => intro acc; simp
  | cons t ts ih =>
    intro acc
    by_cases h : p t = true
    · simp [List.foldl_cons, ih, h]
    · simp [List.foldl_cons, ih, h]

theorem searchLoop_eq_filter (unicodeToLower : Char → Char) (search : String)
    (todos : List Todo) :
    searchLoop unicodeToLower search todos =
      todos.filter (spec.matchesSearch unicodeToLower search) := by
  have h := searchLoop_foldl (spec.matchesSearch unicodeToLower search) todos []
  simpa [searchLoop, spec.matchesSearch] using h

/-- With `FindAll` succeeding and a sort key given, `List` sorts the
search-filtered records and reports no error. -/
theorem List_sorting {σ : Type} (u : todoUsecase σ) (w : World σ) (todos : List Todo)
    (sortBy search : String) (hfind : u.repo.FindAll w.store = (todos, none))
    (hsort : sortBy = "title" ∨ sortBy = "date" ∨ sortBy = "status") :
    (u.List sortBy search w).1 =
      (todoUsecase.sortTodos (spec.searchFiltered u.unicodeToLower search todos) sortBy,
        none) := by
  unfold todoUsecase.List
  rw [hfind]
  by_cases hs : search = ""
  · simp [hs, hsort, spec.searchFiltered]
  · simp [hs, hsort, spec.searchFiltered, searchLoop_eq_filter]

/-! ## Listing: sort order, ties, search -/

/-- C1: when `FindAll` returns a list of records, `List` with `sortBy` one of
`title`, `date`, `status` returns, without error, a permutation of the
search-filtered records in non-decreasing order of the chosen key. -/
theorem List_sorted_permutation {σ : Type} (u : todoUsecase σ) (w : World σ)
    (todos : List Todo) (sortBy search : String)
    (hfind : u.repo.FindAll w.store = (todos, none))
    (hsort : sortBy = "title" ∨ sortBy = "date" ∨ sortBy = "status") :
    ∃ out, (u.List sortBy search w).1 = (out, none) ∧
      out.Perm (spec.searchFiltered u.unicodeToLower search todos) ∧
      out.Pairwise (spec.keyLE sortBy) := by
  have h := sortTodos_method (spec.searchFiltered u.unicodeToLower search todos) sortBy hsort
  exact ⟨_, List_sorting u w todos sortBy search hfind hsort, h.1, h.2.1⟩

/-- C1 at three records sorted by date, searching for `b`. -/
theorem List_sorted_permutation_witness :
    ∃ out,
      ((fixtureUsecase [fixture 1 "b" "COMPLETED" 30, fixture 2 "a" "COMPLETED" 10,
            fixture 3 "ab" "IN_PROGRESS" 20]).List "date" "b" fixtureWorld).1 = (out, none) ∧
      out.Perm (spec.searchFiltered (fun c => c) "b"
        [fixture 1 "b" "COMPLETED" 30, fixture 2 "a" "COMPLETED" 10,
          fixture 3 "ab" "IN_PROGRESS" 20]) ∧
      out.Pairwise (spec.keyLE "date") :=
  List_sorted_permutation
    (fixtureUsecase [fixture 1 "b" "COMPLETED" 30, fixture 2 "a" "COMPLETED" 10,
      fixture 3 "ab" "IN_PROGRESS" 20])
    fixtureWorld _ "date" "b" rfl (Or.inr (Or.inl rfl))

/-- C2 fails as stated: two records with the same title come back from
`List` sorted by title in the opposite order, so the sort is not stable. -/
theorem List_sort_not_stable :
    ((fixtureUsecase [fixture 1 "same" "IN_PROGRESS" 1, fixture 2 "same" "COMPLETED" 2]).List
        "title" "" fixtureWorld).1 =
      ([fixture 2 "same" "COMPLETED" 2, fixture 1 "same" "IN_PROGRESS" 1], none) ∧
    ¬ spec.stable "title"
        [fixture 1 "same" "IN_PROGRESS" 1, fixture 2 "same" "COMPLETED" 2]
        ((fixtureUsecase [fixture 1 "same" "IN_PROGRESS" 1,
            fixture 2 "same" "COMPLETED" 2]).List "title" "" fixtureWorld).1.1 := by
  refine ⟨by decide, ?_⟩
  intro h
  have h1 := h (fixture 1 "same" "IN_PROGRESS" 1)
  revert h1
  decide

/-- C2 as amended: the sort of `List` reverses ties.  For `sortBy` one of
`title`, `date`, `status`, the records that share a sort key stand in the
result in the reverse of the order they have in the fetched and filtered
list. -/
theorem List_sort_reverses_ties {σ : Type} (u : todoUsecase σ) (w : World σ)
    (todos : List Todo) (sortBy search : String)
    (hfind : u.repo.FindAll w.store = (todos, none))
    (hsort : sortBy = "title" ∨ sortBy = "date" ∨ sortBy = "status") (t0 : Todo) :
    (u.List sortBy search w).1.1.filter (spec.sameKey sortBy t0) =
      ((spec.searchFiltered u.unicodeToLower search todos).filter
        (spec.sameKey sortBy t0)).reverse := by
  rw [List_sorting u w todos sortBy search hfind hsort]
  exact (sortTodos_method _ sortBy hsort).2.2 t0

/-- C2 as amended, at three records of which two share a status. -/
theorem List_sort_reverses_ties_witness :
    ((fixtureUsecase [fixture 1 "x" "COMPLETED" 1, fixture 2 "y" "IN_PROGRESS" 2,
          fixture 3 "z" "COMPLETED" 3]).List "status" "" fixtureWorld).1.1.filter
        (spec.sameKey "status" (fixture 1 "x" "COMPLETED" 1)) =
      ((spec.searchFiltered (fun c => c) ""
          [fixture 1 "x" "COMPLETED" 1, fixture 2 "y" "IN_PROGRESS" 2,
            fixture 3 "z" "COMPLETED" 3]).filter
        (spec.sameKey "status" (fixture 1 "x" "COMPLETED" 1))).reverse :=
  List_sort_reverses_ties
    (fixtureUsecase [fixture 1 "x" "COMPLETED" 1, fixture 2 "y" "IN_PROGRESS" 2,
      fixture 3 "z" "COMPLETED" 3])
    fixtureWorld _ "status" "" rfl (Or.inr (Or.inr rfl)) (fixture 1 "x" "COMPLETED" 1)

/-- C3: with no sort key, `List` returns for a non-empty search string
exactly the records whose lower-cased title or description contains the
lower-cased search string, in fetch order, and for the empty search string
the fetched list unchanged. -/
theorem List_search_only {σ : Type} (u : todoUsecase σ) (w : World σ) (todos : List Todo)
    (search : String) (hfind : u.repo.FindAll w.store = (todos, none)) :
    (search ≠ "" →
      (u.List "" search w).1 =
          (todos.filter (spec.matchesSearch u.unicodeToLower search), none) ∧
        (todos.filter (spec.matchesSearch u.unicodeToLower search)).Sublist todos ∧
        ∀ t, t ∈ (u.List "" search w).1.1 ↔
          t ∈ todos ∧ spec.matchesSearch u.unicodeToLower search t = true) ∧
      (u.List "" "" w).1 = (todos, none) := by
  constructor
  · intro hs
    have h : (u.List "" search w).1 =
        (todos.filter (spec.matchesSearch u.unicodeToLower search), none) := by
      unfold todoUsecase.List
      rw [hfind]
      simp [hs, searchLoop_eq_filter]
    refine ⟨h, List.filter_sublist _, ?_⟩
    intro t
    rw [h]
    exact List.mem_filter
  · unfold todoUsecase.List
    rw [hfind]
    simp

/-- C3 at a search for `MILK` over two records. -/
theorem List_search_only_witness :
    (fixtureRepo [fixture 1 "Buy Milk" "COMPLETED" 1, fixture 2 "walk" "IN_PROGRESS" 2]).FindAll
        fixtureWorld.store =
      ([fixture 1 "Buy Milk" "COMPLETED" 1, fixture 2 "walk" "IN_PROGRESS" 2], none) ∧
    "MILK" ≠ "" ∧
    ((fixtureUsecase [fixture 1 "Buy Milk" "COMPLETED" 1,
          fixture 2 "walk" "IN_PROGRESS" 2]).List "" "MILK" fixtureWorld).1 =
      ([fixture 1 "Buy Milk" "COMPLETED" 1], none) :=
  ⟨rfl, by decide,
    ((List_search_only
      (fixtureUsecase [fixture 1 "Buy Milk" "COMPLETED" 1, fixture 2 "walk" "IN_PROGRESS" 2])
      fixtureWorld _ "MILK" rfl).1 (by decide)).1.trans (by decide)⟩

/-! ### An unknown sort key -/

theorem Contains_text_append (text rest s : String) :
    strings.Contains (text ++ rest ++ s) text = true := by
  simp only [strings.Contains, decide_eq_true_eq, String.data_append]
  exact ⟨[], rest.data ++ s.data, by simp⟩

/-- With `FindAll` succeeding and a sort key that is none of the four known
ones, `List` returns no records and the error `fmt.Errorf` built. -/
theorem List_unknown_sort {σ : Type} (u : todoUsecase σ) (w : World σ) (todos : List Todo)
    (sortBy search : String) (hfind : u.repo.FindAll w.store = (todos, none))
    (hbad : sortBy ≠ "title" ∧ sortBy ≠ "date" ∧ sortBy ≠ "status" ∧ sortBy ≠ "") :
    u.List sortBy search w =
      (([], some (fmt.Errorf_s "invalid sort parameter: " sortBy)),
        { w with calls := w.calls ++ [RepoCall.FindAll] }) := by
  obtain ⟨h1, h2, h3, h4⟩ := hbad
  unfold todoUsecase.List
  rw [hfind]
  simp [h1, h2, h3, h4]

/-- C5: with `FindAll` succeeding, `List` with a sort key outside `title`,
`date`, `status` and the empty string returns no records and an error whose
text contains `invalid sort parameter` and which is none of
`ErrValidationFailed`, `ErrNotFound`, `ErrDatabaseOperation`. -/
theorem List_invalid_sort_error {σ : Type} (u : todoUsecase σ) (w : World σ)
    (todos : List Todo) (sortBy search : String)
    (hfind : u.repo.FindAll w.store = (todos, none))
    (hbad : sortBy ≠ "title" ∧ sortBy ≠ "date" ∧ sortBy ≠ "status" ∧ sortBy ≠ "") :
    ∃ e, (u.List sortBy search w).1 = ([], some e) ∧
      strings.Contains e.Error "invalid sort parameter" = true ∧
      errors.Is e domain.ErrValidationFailed = false ∧
      errors.Is e domain.ErrNotFound = false ∧
      errors.Is e domain.ErrDatabaseOperation = false := by
  refine ⟨fmt.Errorf_s "invalid sort parameter: " sortBy, ?_, ?_, ?_, ?_, ?_⟩
  · rw [List_unknown_sort u w todos sortBy search hfind hbad]
  · exact Contains_text_append "invalid sort parameter" ": " sortBy
  · simp [fmt.Errorf_s, errors.Is]
  · simp [fmt.Errorf_s, errors.Is]
  · simp [fmt.Errorf_s, errors.Is]

/-- C5 at the sort key `invalid` of the test suite. -/
theorem List_invalid_sort_error_witness :
    ("invalid" ≠ "title" ∧ "invalid" ≠ "date" ∧ "invalid" ≠ "status" ∧ "invalid" ≠ "") ∧
    ∃ e, ((fixtureUsecase []).List "invalid" "" fixtureWorld).1 = ([], some e) ∧
      strings.Contains e.Error "invalid sort parameter" = true ∧
      errors.Is e domain.ErrValidationFailed = false ∧
      errors.Is e domain.ErrNotFound = false ∧
      errors.Is e domain.ErrDatabaseOperation = false :=
  ⟨by decide, List_invalid_sort_error (fixtureUsecase []) fixtureWorld [] "invalid" "" rfl
    (by decide)⟩

end usecase

/-! ## The request handler -/

namespace controller

theorem Is_wrapError_ErrValidationFailed (msg : String) (err : GoError) :
    errors.Is (GoError.wrapError msg err) domain.ErrValidationFailed =
      errors.Is err domain.ErrValidationFailed := by
  simp [errors.Is]

theorem Is_wrapError_ErrNotFound (msg : String) (err : GoError) :
    errors.Is (GoError.wrapError msg err) domain.ErrNotFound =
      errors.Is err domain.ErrNotFound := by
  simp [errors.Is]

theorem Is_wrapError_ErrDatabaseOperation (msg : String) (err : GoError) :
    errors.Is (GoError.wrapError msg err) domain.ErrDatabaseOperation =
      errors.Is err domain.ErrDatabaseOperation := by
  simp [errors.Is]

/-- The three kinds of an error are those of the error at the bottom of any
stack of wrappers. -/
theorem Is_wrapAll (msgs : List String) (err : GoError) :
    errors.Is (wrapAll msgs err) domain.ErrValidationFailed =
        errors.Is err domain.ErrValidationFailed ∧
      errors.Is (wrapAll msgs err) domain.ErrNotFound = errors.Is err domain.ErrNotFound ∧
      errors.Is (wrapAll msgs err) domain.ErrDatabaseOperation =
        errors.Is err domain.ErrDatabaseOperation := by
  induction msgs with
  | nil => exact ⟨rfl, rfl, rfl⟩
  | cons m ms ih =>
    simp only [wrapAll, List.foldr_cons] at ih ⊢
    rw [Is_wrapError_ErrValidationFailed, Is_wrapError_ErrNotFound,
      Is_wrapError_ErrDatabaseOperation]
    exact ih

/-- The handler `List` answers an unknown sort key, with `FindAll`
succeeding, through the last branch of `handleError`. -/
theorem List_unknown_sort_response {σ : Type} (repo : TodoRepository σ)
    (unicodeToLower : Char → Char) (w : World σ) (todos : List Todo) (sortBy search : String)
    (hfind : repo.FindAll w.store = (todos, none))
    (hbad : sortBy ≠ "title" ∧ sortBy ≠ "date" ∧ sortBy ≠ "status" ∧ sortBy ≠ "") :
    (TodoController.List ⟨usecase.NewTodoUsecase repo unicodeToLower⟩ sortBy search w).1 =
      ⟨http.StatusInternalServerError, Body.H "internal server error"⟩ := by
  have h := usecase.List_unknown_sort ⟨repo, unicodeToLower⟩ w todos sortBy search hfind hbad
  simp only [TodoController.List, usecase.NewTodoUsecase]
  rw [h]
  simp [handleError, fmt.Errorf_s, errors.Is]

/-- C4 on the code: the handler answers a `List` request whose `sort_by` is
`invalid`, with `FindAll` succeeding, with status 500 and the generic
message, not with status 400. -/
theorem List_invalid_sort_status :
    (TodoController.List ⟨usecase.NewTodoUsecase (fixtureRepo []) (fun c => c)⟩
        "invalid" "" fixtureWorld).1 =
      ⟨500, Body.H "internal server error"⟩ ∧
    (TodoController.List ⟨usecase.NewTodoUsecase (fixtureRepo []) (fun c => c)⟩
        "invalid" "" fixtureWorld).1.status ≠ http.StatusBadRequest := by
  have h := List_unknown_sort_response (fixtureRepo []) (fun c => c) fixtureWorld [] "invalid" ""
    rfl (by decide)
  rw [h]
  exact ⟨rfl, by decide⟩

/-- C6: `handleError` answers by kind, whatever stack of wrappers `msgs` lies
around the error: an `ErrValidationFailed` gives 400 with the text of the
error handed in; otherwise an `ErrNotFound` gives 404 with `todo not found`;
any other error gives 500 with `internal server error`. -/
theorem handleError_by_kind (err : GoError) (msgs : List String) :
    (errors.Is err domain.ErrValidationFailed = true →
        handleError (wrapAll msgs err) =
          ⟨http.StatusBadRequest, Body.H (wrapAll msgs err).Error⟩) ∧
      (errors.Is err domain.ErrValidationFailed = false →
        errors.Is err domain.ErrNotFound = true →
        handleError (wrapAll msgs err) = ⟨http.StatusNotFound, Body.H "todo not found"⟩) ∧
      (errors.Is err domain.ErrValidationFailed = false →
        errors.Is err domain.ErrNotFound = false →
        handleError (wrapAll msgs err) =
          ⟨http.StatusInternalServerError, Body.H "internal server error"⟩) := by
  obtain ⟨hv, hn, _⟩ := Is_wrapAll msgs err
  refine ⟨?_, ?_, ?_⟩
  · intro h
    simp [handleError, hv, h]
  · intro h1 h2
    simp [handleError, hv, hn, h1, h2]
  · intro h1 h2
    simp [handleError, hv, hn, h1, h2]

/-- C6 at a validation error, at `ErrNotFound` under two wrappers, and at a
wrapped `ErrDatabaseOperation`. -/
theorem handleError_by_kind_witness :
    handleError (fmt.Errorf_w domain.ErrValidationFailed "ID cannot be empty") =
        ⟨400, Body.H "validation failed: ID cannot be empty"⟩ ∧
      handleError (wrapAll ["handler", "storage"] domain.ErrNotFound) =
        ⟨404, Body.H "todo not found"⟩ ∧
      handleError (wrapAll ["database operation failed: timeout"] domain.ErrDatabaseOperation) =
        ⟨500, Body.H "internal server error"⟩ :=
  ⟨(handleError_by_kind (fmt.Errorf_w domain.ErrValidationFailed "ID cannot be empty") []).1
      (by decide),
    (handleError_by_kind domain.ErrNotFound ["handler", "storage"]).2.1 (by decide) (by decide),
    (handleError_by_kind domain.ErrDatabaseOperation
      ["database operation failed: timeout"]).2.2 (by decide) (by decide)⟩

end controller

/-! ## Validation and the storage gateway -/

namespace usecase

theorem Is_validation_wrap (err : GoError) :
    errors.Is (fmt.Errorf_w_v domain.ErrValidationFailed err) domain.ErrValidationFailed =
      true := by
  simp [fmt.Errorf_w_v, errors.Is]

theorem Struct_empty_title (todo : Todo) (h : todo.Title = "") :
    validator.Struct todo ≠ none := by
  simp [validator.Struct, validator.fieldErrors, validator.titleErrors, validator.required, h]

theorem Struct_bad_status (todo : Todo)
    (h : todo.Status ≠ "IN_PROGRESS" ∧ todo.Status ≠ "COMPLETED") :
    validator.Struct todo ≠ none := by
  have hs : validator.statusErrors todo ≠ [] := by
    unfold validator.statusErrors
    by_cases he : todo.Status = ""
    · simp [validator.required, he]
    · simp [validator.required, validator.oneof, he, h.1, h.2]
  simp [validator.Struct, validator.fieldErrors, hs]

/-- Validation does not look at `CreatedAt`. -/
theorem Struct_CreatedAt (todo : Todo) (t : Time) :
    validator.Struct { todo with CreatedAt := t } = validator.Struct todo := rfl

/-- A todo that fails validation makes `Create` return a wrapped
`ErrValidationFailed` and leave the world as it was. -/
theorem Create_of_invalid {σ : Type} (u : todoUsecase σ) (w : World σ) (todo : Todo)
    (h : validator.Struct todo ≠ none) :
    ∃ e, (u.Create todo w).1.2 = some e ∧
      errors.Is e domain.ErrValidationFailed = true ∧ (u.Create todo w).2 = w := by
  have h2 : validator.Struct
      (if todo.CreatedAt.IsZero then { todo with CreatedAt := w.now } else todo) ≠ none := by
    split
    · rw [Struct_CreatedAt]; exact h
    · exact h
  obtain ⟨err, hv⟩ := Option.ne_none_iff_exists'.1 h2
  unfold todoUsecase.Create
  simp only [hv]
  exact ⟨_, rfl, Is_validation_wrap err, trivial⟩

/-- A todo that fails validation makes `Update` return a wrapped
`ErrValidationFailed` and leave the world as it was. -/
theorem Update_of_invalid {σ : Type} (u : todoUsecase σ) (w : World σ) (todo : Todo)
    (h : validator.Struct todo ≠ none) :
    ∃ e, (u.Update todo w).1.2 = some e ∧
      errors.Is e domain.ErrValidationFailed = true ∧ (u.Update todo w).2 = w := by
  obtain ⟨err, hv⟩ := Option.ne_none_iff_exists'.1 h
  unfold todoUsecase.Update
  simp only [hv]
  exact ⟨_, rfl, Is_validation_wrap err, trivial⟩

/-- C7: `Delete` with the nil UUID returns an `ErrValidationFailed` and makes
no gateway call; with any other id it calls the gateway's `Delete` once, with
that id, and returns what it returns. -/
theorem Delete_checks_id {σ : Type} (u : todoUsecase σ) (w : World σ) (id : UUID) :
    (id = uuid.Nil →
        ∃ e, u.Delete id w = (some e, w) ∧ errors.Is e domain.ErrValidationFailed = true) ∧
      (id ≠ uuid.Nil →
        (u.Delete id w).1 = (u.repo.Delete id w.store).1 ∧
          (u.Delete id w).2.calls = w.calls ++ [RepoCall.Delete id] ∧
          (u.Delete id w).2.store = (u.repo.Delete id w.store).2) := by
  constructor
  · intro h
    refine ⟨fmt.Errorf_w domain.ErrValidationFailed "ID cannot be empty", ?_, ?_⟩
    · simp [todoUsecase.Delete, h]
    · simp [fmt.Errorf_w, errors.Is]
  · intro h
    simp [todoUsecase.Delete, h]

/-- C7 at the nil UUID and at the id 7. -/
theorem Delete_checks_id_witness :
    (∃ e, (fixtureUsecase []).Delete uuid.Nil fixtureWorld = (some e, fixtureWorld) ∧
        errors.Is e domain.ErrValidationFailed = true) ∧
      ((fixtureUsecase []).Delete 7 fixtureWorld).1 = none ∧
      ((fixtureUsecase []).Delete 7 fixtureWorld).2.calls = [RepoCall.Delete 7] :=
  ⟨(Delete_checks_id (fixtureUsecase []) fixtureWorld uuid.Nil).1 rfl,
    ((Delete_checks_id (fixtureUsecase []) fixtureWorld 7).2 (by decide)).1,
    ((Delete_checks_id (fixtureUsecase []) fixtureWorld 7).2 (by decide)).2.1⟩

/-- C8: for a todo that passes validation, when `FindByID` reports the
record absent (an error that is `ErrNotFound`, or no record and no error),
`Update` returns an error that is `ErrNotFound`; its only gateway call is
that lookup, and the store is left as it was. -/
theorem Update_absent {σ : Type} (u : todoUsecase σ) (w : World σ) (todo : Todo)
    (hvalid : validator.Struct todo = none)
    (habsent :
      (∃ rec e, u.repo.FindByID todo.ID w.store = (rec, some e) ∧
          errors.Is e domain.ErrNotFound = true) ∨
        u.repo.FindByID todo.ID w.store = (none, none)) :
    ∃ e, (u.Update todo w).1.2 = some e ∧ errors.Is e domain.ErrNotFound = true ∧
      (u.Update todo w).2.calls = w.calls ++ [RepoCall.FindByID todo.ID] ∧
      (u.Update todo w).2.store = w.store := by
  unfold todoUsecase.Update
  rw [hvalid]
  rcases habsent with ⟨rec, e, hf, he⟩ | hf
  · refine ⟨e, ?_, he, ?_, ?_⟩ <;> simp [hf]
  · refine ⟨domain.ErrNotFound, ?_, by decide, ?_, ?_⟩ <;> simp [hf]

/-- C8 at the todo of the test `Update non-existent todo`. -/
theorem Update_absent_witness :
    validator.Struct (fixture 9 "Test" "IN_PROGRESS" 5) = none ∧
    ∃ e, ((fixtureUsecase []).Update (fixture 9 "Test" "IN_PROGRESS" 5) fixtureWorld).1.2 =
        some e ∧
      errors.Is e domain.ErrNotFound = true ∧
      ((fixtureUsecase []).Update (fixture 9 "Test" "IN_PROGRESS" 5) fixtureWorld).2.calls =
        fixtureWorld.calls ++ [RepoCall.FindByID (fixture 9 "Test" "IN_PROGRESS" 5).ID] ∧
      ((fixtureUsecase []).Update (fixture 9 "Test" "IN_PROGRESS" 5) fixtureWorld).2.store =
        fixtureWorld.store :=
  ⟨by decide,
    Update_absent (fixtureUsecase []) fixtureWorld (fixture 9 "Test" "IN_PROGRESS" 5)
      (by decide) (Or.inl ⟨none, domain.ErrNotFound, rfl, by decide⟩)⟩

/-- C9: for a todo with an empty title, and for any todo that fails
validation, `Create` returns an error that is `ErrValidationFailed`, makes no
gateway call and leaves the store as it was. -/
theorem Create_invalid {σ : Type} (u : todoUsecase σ) (w : World σ) (todo : Todo)
    (h : todo.Title = "" ∨ validator.Struct todo ≠ none) :
    ∃ e, (u.Create todo w).1.2 = some e ∧ errors.Is e domain.ErrValidationFailed = true ∧
      (u.Create todo w).2.calls = w.calls ∧ (u.Create todo w).2.store = w.store := by
  have hv : validator.Struct todo ≠ none := by
    rcases h with h | h
    · exact Struct_empty_title todo h
    · exact h
  obtain ⟨e, h1, h2, h3⟩ := Create_of_invalid u w todo hv
  exact ⟨e, h1, h2, by rw [h3], by rw [h3]⟩

/-- C9 at the todo of the test `Create invalid title - empty`. -/
theorem Create_invalid_witness :
    (fixture 0 "" "IN_PROGRESS" 5).Title = "" ∧
    ∃ e, ((fixtureUsecase []).Create (fixture 0 "" "IN_PROGRESS" 5) fixtureWorld).1.2 =
        some e ∧
      errors.Is e domain.ErrValidationFailed = true ∧
      ((fixtureUsecase []).Create (fixture 0 "" "IN_PROGRESS" 5) fixtureWorld).2.calls =
        fixtureWorld.calls ∧
      ((fixtureUsecase []).Create (fixture 0 "" "IN_PROGRESS" 5) fixtureWorld).2.store =
        fixtureWorld.store :=
  ⟨rfl, Create_invalid (fixtureUsecase []) fixtureWorld (fixture 0 "" "IN_PROGRESS" 5)
    (Or.inl rfl)⟩

/-- C10: for a todo whose status is neither `IN_PROGRESS` nor `COMPLETED`,
`Create` and `Update` both return an error that is `ErrValidationFailed`,
whatever the other fields and whatever the gateway would return. -/
theorem Create_Update_bad_status {σ : Type} (u : todoUsecase σ) (w : World σ) (todo : Todo)
    (h : todo.Status ≠ "IN_PROGRESS" ∧ todo.Status ≠ "COMPLETED") :
    (∃ e, (u.Create todo w).1.2 = some e ∧ errors.Is e domain.ErrValidationFailed = true) ∧
      (∃ e, (u.Update todo w).1.2 = some e ∧
        errors.Is e domain.ErrValidationFailed = true) := by
  have hv := Struct_bad_status todo h
  obtain ⟨e1, h1, h2, _⟩ := Create_of_invalid u w todo hv
  obtain ⟨e2, h3, h4, _⟩ := Update_of_invalid u w todo hv
  exact ⟨⟨e1, h1, h2⟩, ⟨e2, h3, h4⟩⟩

/-- C10 at the status `DONE` and at the empty status. -/
theorem Create_Update_bad_status_witness :
    ((fixture 1 "Test" "DONE" 5).Status ≠ "IN_PROGRESS" ∧
        (fixture 1 "Test" "DONE" 5).Status ≠ "COMPLETED") ∧
      ((∃ e, ((fixtureUsecase []).Create (fixture 1 "Test" "DONE" 5) fixtureWorld).1.2 =
            some e ∧ errors.Is e domain.ErrValidationFailed = true) ∧
        (∃ e, ((fixtureUsecase []).Update (fixture 1 "Test" "DONE" 5) fixtureWorld).1.2 =
            some e ∧ errors.Is e domain.ErrValidationFailed = true)) ∧
      ((∃ e, ((fixtureUsecase []).Create (fixture 1 "Test" "" 5) fixtureWorld).1.2 =
            some e ∧ errors.Is e domain.ErrValidationFailed = true) ∧
        (∃ e, ((fixtureUsecase []).Update (fixture 1 "Test" "" 5) fixtureWorld).1.2 =
            some e ∧ errors.Is e domain.ErrValidationFailed = true)) :=
  ⟨by decide,
    Create_Update_bad_status (fixtureUsecase []) fixtureWorld (fixture 1 "Test" "DONE" 5)
      (by decide),
    Create_Update_bad_status (fixtureUsecase []) fixtureWorld (fixture 1 "Test" "" 5)
      (by decide)⟩

/-! ### Validation comes first -/

theorem Is_validation_wrap_ErrNotFound (err : GoError) :
    errors.Is (fmt.Errorf_w_v domain.ErrValidationFailed err) domain.ErrNotFound = false := by
  simp [fmt.Errorf_w_v, errors.Is]

/-- C11: for a todo that fails validation, `Update` returns an error that is
`ErrValidationFailed` and not `ErrNotFound`, and calls neither `FindByID` nor
`Update` of the gateway: the call log and the store are as before, whatever
the store holds. -/
theorem Update_validates_first {σ : Type} (u : todoUsecase σ) (w : World σ) (todo : Todo)
    (h : validator.Struct todo ≠ none) :
    ∃ e, (u.Update todo w).1.2 = some e ∧
      errors.Is e domain.ErrValidationFailed = true ∧
      errors.Is e domain.ErrNotFound = false ∧
      (u.Update todo w).2.calls = w.calls ∧ (u.Update todo w).2.store = w.store := by
  obtain ⟨err, hv⟩ := Option.ne_none_iff_exists'.1 h
  unfold todoUsecase.Update
  simp only [hv]
  exact ⟨_, rfl, Is_validation_wrap err, Is_validation_wrap_ErrNotFound err,
    trivial, trivial⟩

/-- C11 at a todo with a bad status, once with its id in the table and once
with an empty table. -/
theorem Update_validates_first_witness :
    validator.Struct (fixture 1 "Test" "DONE" 5) ≠ none ∧
      (∃ e, (tableUsecase.Update (fixture 1 "Test" "DONE" 5)
            (tableWorld [fixture 1 "Test" "IN_PROGRESS" 5])).1.2 = some e ∧
        errors.Is e domain.ErrValidationFailed = true ∧
        errors.Is e domain.ErrNotFound = false ∧
        (tableUsecase.Update (fixture 1 "Test" "DONE" 5)
            (tableWorld [fixture 1 "Test" "IN_PROGRESS" 5])).2.calls =
          (tableWorld [fixture 1 "Test" "IN_PROGRESS" 5]).calls ∧
        (tableUsecase.Update (fixture 1 "Test" "DONE" 5)
            (tableWorld [fixture 1 "Test" "IN_PROGRESS" 5])).2.store =
          (tableWorld [fixture 1 "Test" "IN_PROGRESS" 5]).store) ∧
      (∃ e, (tableUsecase.Update (fixture 1 "Test" "DONE" 5) (tableWorld [])).1.2 = some e ∧
        errors.Is e domain.ErrValidationFailed = true ∧
        errors.Is e domain.ErrNotFound = false ∧
        (tableUsecase.Update (fixture 1 "Test" "DONE" 5) (tableWorld [])).2.calls =
          (tableWorld []).calls ∧
        (tableUsecase.Update (fixture 1 "Test" "DONE" 5) (tableWorld [])).2.store =
          (tableWorld []).store) :=
  ⟨by decide,
    Update_validates_first tableUsecase (tableWorld [fixture 1 "Test" "IN_PROGRESS" 5])
      (fixture 1 "Test" "DONE" 5) (by decide),
    Update_validates_first tableUsecase (tableWorld []) (fixture 1 "Test" "DONE" 5)
      (by decide)⟩

/-! ### What an update does to `CreatedAt` -/

/-- After `db.Save(todo)` the lookup of `todo.ID` gives the saved record
exactly when it gave a record before. -/
theorem dbFirst_dbSave (now : Time) (todo : Todo) : ∀ rows : List Todo,
    repository.dbFirst todo.ID (repository.dbSave now todo rows).2 =
      (repository.dbFirst todo.ID rows).map (fun _ => { todo with UpdatedAt := now }) := by
  intro rows
  induction rows with
  | nil => rfl
  | cons r rs ih =>
    simp only [repository.dbFirst, repository.dbSave, List.map_cons] at ih ⊢
    by_cases hr : r.ID = todo.ID
    · simp [List.find?_cons, hr]
    · simp [List.find?_cons, hr, ih]

/-- A successful `Update` over the repository `TodoRepo` found a record with
the id and left the table as `db.Save` makes it. -/
theorem Update_ok_store (new : UUID) (now : Time) (unicodeToLower : Char → Char)
    (w : World (List Todo)) (todo : Todo)
    (hok : (todoUsecase.Update ⟨repository.TodoRepo new now, unicodeToLower⟩ todo w).1.2 =
      none) :
    (∃ old, repository.dbFirst todo.ID w.store = some old) ∧
      (todoUsecase.Update ⟨repository.TodoRepo new now, unicodeToLower⟩ todo w).2.store =
        (repository.dbSave now todo w.store).2 := by
  unfold todoUsecase.Update at hok ⊢
  cases hv : validator.Struct todo with
  | some err => simp [hv] at hok
  | none =>
    cases hf : repository.dbFirst todo.ID w.store with
    | none => simp [hv, repository.TodoRepo, hf] at hok
    | some old => exact ⟨⟨old, rfl⟩, by simp [repository.TodoRepo, hf]⟩

/-- C12 fails as stated: a stored record created at time 10 is updated, with
success, by a request that carries the creation time 99, and the stored
record then has the creation time 99. -/
theorem Update_changes_CreatedAt :
    (tableUsecase.Update (fixture 1 "a" "COMPLETED" 99)
        (tableWorld [fixture 1 "a" "IN_PROGRESS" 10])).1.2 = none ∧
    (repository.dbFirst 1 (tableWorld [fixture 1 "a" "IN_PROGRESS" 10]).store).map
        (fun r => r.CreatedAt) = some ⟨10⟩ ∧
    (repository.dbFirst 1
        (tableUsecase.Update (fixture 1 "a" "COMPLETED" 99)
          (tableWorld [fixture 1 "a" "IN_PROGRESS" 10])).2.store).map
        (fun r => r.CreatedAt) = some ⟨99⟩ := by
  decide

/-- C12 as amended: after a successful `Update` over a storage gateway that
overwrites the stored record with the given field values, the stored record
of that id has the `CreatedAt` the update request carries. -/
theorem Update_stores_request_CreatedAt (new : UUID) (now : Time)
    (unicodeToLower : Char → Char) (w : World (List Todo)) (todo : Todo)
    (hok : (todoUsecase.Update ⟨repository.TodoRepo new now, unicodeToLower⟩ todo w).1.2 =
      none) :
    ∃ old rec,
      (repository.TodoRepo new now).FindByID todo.ID w.store = (some old, none) ∧
      (repository.TodoRepo new now).FindByID todo.ID
          (todoUsecase.Update ⟨repository.TodoRepo new now, unicodeToLower⟩ todo w).2.store =
        (some rec, none) ∧
      rec.CreatedAt = todo.CreatedAt := by
  obtain ⟨⟨old, hold⟩, hstore⟩ := Update_ok_store new now unicodeToLower w todo hok
  refine ⟨old, { todo with UpdatedAt := now }, ?_, ?_, rfl⟩
  · simp [repository.TodoRepo, hold]
  · rw [hstore]
    simp [repository.TodoRepo, dbFirst_dbSave, hold]

/-- C12 as amended, at the update of the counterexample. -/
theorem Update_stores_request_CreatedAt_witness :
    (tableUsecase.Update (fixture 1 "a" "COMPLETED" 99)
        (tableWorld [fixture 1 "a" "IN_PROGRESS" 10])).1.2 = none ∧
    ∃ old rec,
      (repository.TodoRepo 77 ⟨2000⟩).FindByID (fixture 1 "a" "COMPLETED" 99).ID
          (tableWorld [fixture 1 "a" "IN_PROGRESS" 10]).store = (some old, none) ∧
      (repository.TodoRepo 77 ⟨2000⟩).FindByID (fixture 1 "a" "COMPLETED" 99).ID
          (todoUsecase.Update ⟨repository.TodoRepo 77 ⟨2000⟩, fun c => c⟩
            (fixture 1 "a" "COMPLETED" 99)
            (tableWorld [fixture 1 "a" "IN_PROGRESS" 10])).2.store = (some rec, none) ∧
      rec.CreatedAt = (fixture 1 "a" "COMPLETED" 99).CreatedAt :=
  ⟨by decide,
    Update_stores_request_CreatedAt 77 ⟨2000⟩ (fun c => c)
      (tableWorld [fixture 1 "a" "IN_PROGRESS" 10]) (fixture 1 "a" "COMPLETED" 99)
      (by decide)⟩

/-! ### Storage errors pass through -/

/-- C14: on an input that passes the use case's own checks, an error `e`
returned by the gateway's `Create` (in `Create`), `FindByID` or `Update` (in
`Update`), `FindAll` (in `List`) or `Delete` (in `Delete`) is returned by the
use case as it is, so `errors.Is` answers on the result as it does on `e`. -/
theorem storage_errors_unchanged {σ : Type} (u : todoUsecase σ) (w : World σ) (e : GoError) :
    (∀ todo, validator.Struct todo = none →
        (u.repo.Create (if todo.CreatedAt.IsZero then { todo with CreatedAt := w.now } else todo)
          w.store).1.2 = some e →
        (u.Create todo w).1.2 = some e) ∧
      (∀ todo rec, validator.Struct todo = none →
        u.repo.FindByID todo.ID w.store = (rec, some e) →
        (u.Update todo w).1.2 = some e) ∧
      (∀ todo rec, validator.Struct todo = none →
        u.repo.FindByID todo.ID w.store = (some rec, none) →
        (u.repo.Update todo w.store).1.2 = some e →
        (u.Update todo w).1.2 = some e) ∧
      (∀ sortBy search todos, u.repo.FindAll w.store = (todos, some e) →
        (u.List sortBy search w).1 = ([], some e)) ∧
      (∀ id, id ≠ uuid.Nil → (u.repo.Delete id w.store).1 = some e →
        (u.Delete id w).1 = some e) := by
  refine ⟨?_, ?_, ?_, ?_, ?_⟩
  · intro todo hv he
    have hv2 : validator.Struct
        (if todo.CreatedAt.IsZero then { todo with CreatedAt := w.now } else todo) = none := by
      split
      · rw [Struct_CreatedAt]; exact hv
      · exact hv
    unfold todoUsecase.Create
    simp only [hv2]
    exact he
  · intro todo rec hv hf
    unfold todoUsecase.Update
    simp [hv, hf]
  · intro todo rec hv hf he
    unfold todoUsecase.Update
    simp [hv, hf, he]
  · intro sortBy search todos hf
    unfold todoUsecase.List
    simp [hf]
  · intro id hid he
    unfold todoUsecase.Delete
    simp [hid, he]

/-- C14 at a wrapped `ErrDatabaseOperation`, as the repository builds it,
coming back from each of the five gateway methods. -/
theorem storage_errors_unchanged_witness :
    ((⟨failingRepo (fmt.Errorf_w domain.ErrDatabaseOperation "connection refused"),
          fun c => c⟩ : todoUsecase Unit).Create (fixture 1 "Test" "IN_PROGRESS" 5)
        fixtureWorld).1.2 =
      some (fmt.Errorf_w domain.ErrDatabaseOperation "connection refused") ∧
    ((⟨failingRepo (fmt.Errorf_w domain.ErrDatabaseOperation "connection refused"),
          fun c => c⟩ : todoUsecase Unit).Update (fixture 1 "Test" "IN_PROGRESS" 5)
        fixtureWorld).1.2 =
      some (fmt.Errorf_w domain.ErrDatabaseOperation "connection refused") ∧
    ((⟨failingUpdateRepo (fixture 1 "Old" "IN_PROGRESS" 5)
            (fmt.Errorf_w domain.ErrDatabaseOperation "connection refused"),
          fun c => c⟩ : todoUsecase Unit).Update (fixture 1 "Test" "IN_PROGRESS" 5)
        fixtureWorld).1.2 =
      some (fmt.Errorf_w domain.ErrDatabaseOperation "connection refused") ∧
    ((⟨failingRepo (fmt.Errorf_w domain.ErrDatabaseOperation "connection refused"),
          fun c => c⟩ : todoUsecase Unit).List "title" "x" fixtureWorld).1 =
      ([], some (fmt.Errorf_w domain.ErrDatabaseOperation "connection refused")) ∧
    ((⟨failingRepo domain.ErrNotFound, fun c => c⟩ : todoUsecase Unit).Delete 7
        fixtureWorld).1 = some domain.ErrNotFound :=
  ⟨(storage_errors_unchanged _ fixtureWorld _).1 (fixture 1 "Test" "IN_PROGRESS" 5)
      (by decide) rfl,
    (storage_errors_unchanged _ fixtureWorld _).2.1 (fixture 1 "Test" "IN_PROGRESS" 5) none
      (by decide) rfl,
    (storage_errors_unchanged _ fixtureWorld _).2.2.1 (fixture 1 "Test" "IN_PROGRESS" 5)
      (fixture 1 "Old" "IN_PROGRESS" 5) (by decide) rfl rfl,
    (storage_errors_unchanged _ fixtureWorld _).2.2.2.1 "title" "x" [] rfl,
    (storage_errors_unchanged _ fixtureWorld _).2.2.2.2 7 (by decide) rfl⟩

end usecase

/-! ## The creation hook -/

namespace domain

/-- C13: `BeforeCreate` returns no error, leaves a todo with a non-nil `ID`
as it is, gives a todo with the nil `ID` the generated identifier and changes
no other field, so the `ID` is non-nil afterwards provided the generated
identifier is. -/
theorem BeforeCreate_assigns_absent_id (new : UUID) (t : Todo) :
    (t.BeforeCreate new).2 = none ∧
      (t.ID ≠ uuid.Nil → (t.BeforeCreate new).1 = t) ∧
      (t.ID = uuid.Nil → (t.BeforeCreate new).1 = { t with ID := new }) ∧
      (new ≠ uuid.Nil → (t.BeforeCreate new).1.ID ≠ uuid.Nil) := by
  refine ⟨rfl, ?_, ?_, ?_⟩
  · intro h; simp [Todo.BeforeCreate, h]
  · intro h; simp [Todo.BeforeCreate, h]
  · intro hn
    by_cases h : t.ID = uuid.Nil
    · simp [Todo.BeforeCreate, h, hn]
    · simp [Todo.BeforeCreate, h]

/-- C13 at a todo that has the id 5 and at one that has none, the generator
giving 77. -/
theorem BeforeCreate_assigns_absent_id_witness :
    ((fixture 5 "Test" "IN_PROGRESS" 1).BeforeCreate 77).1 = fixture 5 "Test" "IN_PROGRESS" 1 ∧
      ((fixture 0 "Test" "IN_PROGRESS" 1).BeforeCreate 77).1 =
        fixture 77 "Test" "IN_PROGRESS" 1 ∧
      ((fixture 0 "Test" "IN_PROGRESS" 1).BeforeCreate 77).1.ID ≠ uuid.Nil :=
  ⟨(BeforeCreate_assigns_absent_id 77 (fixture 5 "Test" "IN_PROGRESS" 1)).2.1 (by decide),
    (BeforeCreate_assigns_absent_id 77 (fixture 0 "Test" "IN_PROGRESS" 1)).2.2.1 rfl,
    (BeforeCreate_assigns_absent_id 77 (fixture 0 "Test" "IN_PROGRESS" 1)).2.2.2 (by decide)⟩

end domain

end TodoApp
